import Mathlib

/-!
Verification of the rn-builder release pipeline (Go sources) against its
natural-language specification.  Go functions are shallowly embedded as
executable Lean definitions over `List Char` / `String`; recursion uses an
explicit fuel argument (always instantiated with a sufficient bound by the
wrappers) so that every definition is structurally recursive and evaluates
by `decide` / `rfl`.
-/

namespace RnBuilder

/-! ## Go standard-library string primitives used by the sources -/

/-- Go `strings.Contains(hay, needle)`: does `needle` occur as a contiguous
substring of `hay`? -/
def containsSub (hay needle : List Char) : Bool :=
  match hay with
  | [] => needle.isEmpty
  | _ :: t => needle.isPrefixOf hay || containsSub t needle

/-- Fuel-indexed core of Go `strings.ReplaceAll`: replaces non-overlapping
occurrences of `needle` left to right.  The wrapper supplies fuel
`hay.length + 1`, which is sufficient because each step consumes at least
one character of `hay` when `needle` is nonempty. -/
def replaceAllGo : Nat → List Char → List Char → List Char → List Char
  | 0, hay, _, _ => hay
  | _ + 1, [], _, _ => []
  | fuel + 1, c :: t, needle, repl =>
    if needle.isPrefixOf (c :: t) then
      repl ++ replaceAllGo fuel ((c :: t).drop needle.length) needle repl
    else
      c :: replaceAllGo fuel t needle repl

/-- Go `strings.ReplaceAll(hay, needle, repl)` for nonempty `needle`
(every call site in the sources passes a nonempty literal). -/
def replaceAll (hay needle repl : List Char) : List Char :=
  if needle.isEmpty then hay else replaceAllGo (hay.length + 1) hay needle repl

/-- Fuel-indexed core of Go `strings.Split` with a nonempty separator. -/
def splitOnSepGo : Nat → List Char → List Char → List (List Char)
  | 0, hay, _ => [hay]
  | _ + 1, [], _ => [[]]
  | fuel + 1, c :: t, sep =>
    if sep.isPrefixOf (c :: t) then
      [] :: splitOnSepGo fuel ((c :: t).drop sep.length) sep
    else
      match splitOnSepGo fuel t sep with
      | [] => [[c]]
      | h :: rest => (c :: h) :: rest

/-- Go `strings.Split(hay, sep)` for nonempty `sep`. -/
def splitOnSep (hay sep : List Char) : List (List Char) :=
  if sep.isEmpty then [hay] else splitOnSepGo (hay.length + 1) hay sep

/-- Go `strings.TrimRight(s, cutset)` with cutset `CR LF`: removes every
trailing carriage-return or line-feed character. -/
def trimRightCRLF (l : List Char) : List Char :=
  (l.reverse.dropWhile (fun c => c == '\r' || c == '\n')).reverse

/-- Decimal value of a digit list (most significant first). -/
def digitsVal (ds : List Char) : Nat :=
  ds.foldl (fun a c => a * 10 + (c.toNat - '0'.toNat)) 0

/-- Are all characters ASCII decimal digits? -/
def allDigits (ds : List Char) : Bool :=
  ds.all (fun c => '0' ≤ c && c ≤ '9')

/-- Go `strconv.Atoi` on a 64-bit platform: an optional sign followed by at
least one decimal digit, with the resulting value required to fit in a
signed 64-bit integer (`strconv.ErrRange` otherwise). -/
def atoi (s : List Char) : Option Int :=
  let signAndDigits : Bool × List Char :=
    match s with
    | '+' :: t => (false, t)
    | '-' :: t => (true, t)
    | t => (false, t)
  let neg := signAndDigits.1
  let ds := signAndDigits.2
  if ds.isEmpty || !allDigits ds then none
  else
    let v := digitsVal ds
    if neg then
      if v ≤ 2 ^ 63 then some (-(v : Int)) else none
    else
      if v ≤ 2 ^ 63 - 1 then some ((v : Int)) else none

/-! ## Log Sink (`LogWriter.Write` of `log.go` and its two variants)

The global state of the sink is the byte accumulation buffer (`logBuffer`)
together with the bounded display ring (`lines`). -/

/-- The global sink state: the `bytes.Buffer` contents and the display ring. -/
structure LogState where
  buffer : List Char
  lines : List String
deriving DecidableEq, Repr

/-- `maxLogLines = 25` from `log.go`. -/
def maxLogLines : Nat := 25

/-- The ring append of `LogWriter.Write`: `lines = append(lines, l)`
followed by dropping the front element when the length exceeds
`maxLogLines`. -/
def appendLine (ls : List String) (l : String) : List String :=
  let grown := ls ++ [l]
  if maxLogLines < grown.length then grown.drop 1 else grown

/-- `bytes.Buffer.ReadString('\n')`, split into its two outcomes: `some
(line, rest)` when a newline is present (`line` includes the newline and is
removed from the buffer), and `none` on `io.EOF` — in which case the Go
method has CONSUMED the whole remaining buffer and returned it as data,
which `LogWriter.Write` then discards. -/
def breakNL : List Char → Option (List Char × List Char)
  | [] => none
  | c :: t =>
    if c == '\n' then some ([c], t)
    else
      match breakNL t with
      | none => none
      | some (l, r) => some (c :: l, r)

/-- The line-extraction loop of `LogWriter.Write`.  On `io.EOF` the Go code
breaks out of the loop, discarding the data `ReadString` returned, so the
buffer left behind is empty. -/
def processLinesGo : Nat → List Char → List String → List Char × List String
  | 0, buf, ls => (buf, ls)
  | fuel + 1, buf, ls =>
    match breakNL buf with
    | some (line, rest) =>
      processLinesGo fuel rest (appendLine ls (String.mk (trimRightCRLF line)))
    | none => ([], ls)

/-- One `LogWriter.Write(p)` call: append `p` to the accumulation buffer,
then extract complete lines into the ring. -/
def logWrite (st : LogState) (p : List Char) : LogState :=
  let buf := st.buffer ++ p
  let r := processLinesGo (buf.length + 1) buf st.lines
  { buffer := r.1, lines := r.2 }

/-- A sequence of `Write` calls with string payloads. -/
def logWrites (st : LogState) (ps : List String) : LogState :=
  ps.foldl (fun s p => logWrite s p.data) st

/-! ## Log Sink theorems -/

theorem appendLine_length_le (ls : List String) (l : String)
    (h : ls.length ≤ maxLogLines) : (appendLine ls l).length ≤ maxLogLines := by
  simp only [appendLine]
  split
  · simp only [List.length_drop, List.length_append, List.length_singleton]
    omega
  · next hc =>
    simp only [List.length_append, List.length_singleton]
    simp only [List.length_append, List.length_singleton, not_lt] at hc
    omega

theorem processLinesGo_length_le (fuel : Nat) :
    ∀ (buf : List Char) (ls : List String), ls.length ≤ maxLogLines →
      (processLinesGo fuel buf ls).2.length ≤ maxLogLines := by
  induction fuel with
  | zero => intro buf ls h; simpa [processLinesGo] using h
  | succ n ih =>
    intro buf ls h
    unfold processLinesGo
    cases hb : breakNL buf with
    | none => simpa using h
    | some pr =>
      exact ih pr.2 _ (appendLine_length_le _ _ h)

theorem appendLine_at_capacity (ls : List String) (l : String)
    (h : ls.length = maxLogLines) :
    appendLine ls l = ls.drop 1 ++ [l] ∧ (appendLine ls l).head? = ls.get? 1 := by
  have h1 : 1 ≤ ls.length := by rw [h]; decide
  have hgrown : maxLogLines < (ls ++ [l]).length := by
    simp only [List.length_append, List.length_singleton]
    omega
  have heq : appendLine ls l = ls.drop 1 ++ [l] := by
    unfold appendLine
    simp only [hgrown, if_true]
    exact List.drop_append_of_le_length h1
  refine ⟨heq, ?_⟩
  rw [heq]
  match ls, h with
  | a :: b :: t, _ => rfl

/-- C2: after every `Write` call the display ring holds at most 25 lines
(`maxLogLines = 25`); when a line is appended while the ring already holds
25 lines, the front line is evicted, so the ring becomes the old ring
without its head followed by the new line, and the new front is the
previously second-oldest line. -/
theorem ring_bounded_and_fifo (st : LogState) (p : List Char)
    (ls : List String) (l : String)
    (hst : st.lines.length ≤ maxLogLines) (hcap : ls.length = maxLogLines) :
    maxLogLines = 25 ∧
    (logWrite st p).lines.length ≤ maxLogLines ∧
    appendLine ls l = ls.drop 1 ++ [l] ∧
    (appendLine ls l).head? = ls.get? 1 := by
  obtain ⟨h1, h2⟩ := appendLine_at_capacity ls l hcap
  exact ⟨rfl, processLinesGo_length_le _ _ _ hst, h1, h2⟩

theorem ring_bounded_and_fifo_witness :
    maxLogLines = 25 ∧
    (logWrite { buffer := [], lines := [] } "x\ny\n".data).lines.length ≤ maxLogLines ∧
    appendLine ("a" :: "b" :: List.replicate 23 "c") "z"
      = ("a" :: "b" :: List.replicate 23 "c").drop 1 ++ ["z"] ∧
    (appendLine ("a" :: "b" :: List.replicate 23 "c") "z").head?
      = ("a" :: "b" :: List.replicate 23 "c").get? 1 :=
  ring_bounded_and_fifo { buffer := [], lines := [] } "x\ny\n".data
    ("a" :: "b" :: List.replicate 23 "c") "z" (by decide) (by decide)

/-- C1 (code bug): the line-reassembly invariant fails.  The same byte
stream `"abc\n"` yields the line `"abc"` when delivered in one `Write` call
but the line `"c"` when delivered as `"ab"` then `"c\n"`: on `io.EOF`,
`bytes.Buffer.ReadString` consumes the trailing partial line `"ab"` and
returns it as data, and `LogWriter.Write` discards it (the accumulation
buffer is left empty rather than holding `"ab"`), contradicting the code's
own comments and the specification. -/
theorem chunked_write_divergence :
    (logWrites { buffer := [], lines := [] } ["ab", "c\n"]).lines = ["c"] ∧
    (logWrites { buffer := [], lines := [] } ["abc\n"]).lines = ["abc"] ∧
    (logWrites { buffer := [], lines := [] } ["ab", "c\n"]).buffer = [] := by
  decide

/-! ## Build number (`calculateBuildNumberSimple` of `utils.go`) -/

/-- `calculateBuildNumberSimple(version)`: split on `.`, require exactly
three components, and `strconv.Atoi` the third. -/
def calculateBuildNumberSimple (version : String) : Except String Int :=
  match splitOnSep version.data ['.'] with
  | [_, _, p2] =>
    match atoi p2 with
    | some n => .ok n
    | none => .error ("invalid patch version part: " ++ String.mk p2)
  | _ => .error ("invalid version format (expected X.Y.Z): " ++ version)

/-- C8 counterexample: `"1.2.9999999999999999999"` has exactly three
dot-separated components and its third component is a plain decimal
numeral, yet the function fails, because `strconv.Atoi` rejects values
outside the signed 64-bit range. -/
theorem buildNumber_overflow_counterexample :
    splitOnSep "1.2.9999999999999999999".data ['.']
      = ["1".data, "2".data, "9999999999999999999".data] ∧
    allDigits "9999999999999999999".data = true ∧
    (2 : Nat) ^ 63 - 1 < digitsVal "9999999999999999999".data ∧
    calculateBuildNumberSimple "1.2.9999999999999999999"
      = .error "invalid patch version part: 9999999999999999999" := by
  refine ⟨by decide, by decide, by decide, rfl⟩

/-- C8 (amended): `calculateBuildNumberSimple` returns `n` whenever the
version has exactly three dot-separated components and the third parses
under `strconv.Atoi` (an optionally signed decimal numeral fitting a signed
64-bit integer) as `n`; the first two components are never inspected; it
fails when `Atoi` fails on the third component or when the component count
is not three; and `"1.2.37" = 37` while `"1.2"` and `"1.2.x"` fail. -/
theorem buildNumber_characterization (v : String) (a b p : List Char) (n : Int)
    (hsplit : splitOnSep v.data ['.'] = [a, b, p]) :
    (atoi p = some n → calculateBuildNumberSimple v = .ok n) ∧
    (atoi p = none →
      calculateBuildNumberSimple v
        = .error ("invalid patch version part: " ++ String.mk p)) ∧
    calculateBuildNumberSimple "1.2.37" = .ok 37 ∧
    (∃ e, calculateBuildNumberSimple "1.2" = .error e) ∧
    (∃ e, calculateBuildNumberSimple "1.2.x" = .error e) ∧
    (∀ w : String, (splitOnSep w.data ['.']).length ≠ 3 →
      calculateBuildNumberSimple w
        = .error ("invalid version format (expected X.Y.Z): " ++ w)) := by
  refine ⟨?_, ?_, rfl, ⟨_, rfl⟩, ⟨_, rfl⟩, ?_⟩
  · intro ha
    simp only [calculateBuildNumberSimple, hsplit, ha]
  · intro ha
    simp only [calculateBuildNumberSimple, hsplit, ha]
  · intro w hw
    unfold calculateBuildNumberSimple
    match hs : splitOnSep w.data ['.'] with
    | [] => rfl
    | [_] => rfl
    | [_, _] => rfl
    | [x, y, z] => rw [hs] at hw; simp at hw
    | _ :: _ :: _ :: _ :: _ => rfl

theorem buildNumber_characterization_witness :
    calculateBuildNumberSimple "9.9.5" = .ok 5 :=
  (buildNumber_characterization "9.9.5" "9".data "9".data "5".data 5
    (by decide)).1 (by decide)

/-! ## Shell command assembly (Unix path of `runCmd` in `run.go`) -/

/-- A single-quote character (used by the argument-quoting heuristic). -/
def sq : Char := Char.ofNat 39

/-- A single-quote as a one-character string. -/
def sqS : String := String.mk [sq]

/-- The per-argument quoting of `runCmd`: wrap the argument in single
quotes when it contains a space (`strings.Contains(arg, " ")`), otherwise
leave it untouched.  No character is ever escaped. -/
def quoteArg (arg : String) : String :=
  if containsSub arg.data [' '] then sqS ++ arg ++ sqS else arg

/-- The Unix `fullCmdStr` of `runCmd`: the command, then, if any arguments
are present, a space and the space-joined quoted arguments. -/
def buildShellCommand (command : String) (args : List String) : String :=
  if args.isEmpty then command
  else command ++ " " ++ String.intercalate " " (args.map quoteArg)

/-- C6 counterexample: the argument `"a\tb"` contains whitespace (a tab)
but is NOT wrapped in single quotes — the heuristic only tests for the
space character. -/
theorem quoting_tab_counterexample :
    "a\tb".data.any Char.isWhitespace = true ∧
    quoteArg "a\tb" = "a\tb" ∧
    buildShellCommand "echo" ["a\tb"] = "echo a\tb" := by
  refine ⟨by decide, by decide, by decide⟩

/-- C6 (amended): on the Unix path the command and arguments are joined
into one shell-evaluated string; every argument containing a space
character (U+0020) is individually wrapped in single quotes, every other
argument is joined verbatim, and the argument text is always embedded
unmodified (no character, in particular no quote character, is escaped). -/
theorem shell_join_characterization (command : String) (args : List String)
    (arg : String) :
    (containsSub arg.data [' '] = true → quoteArg arg = sqS ++ arg ++ sqS) ∧
    (containsSub arg.data [' '] = false → quoteArg arg = arg) ∧
    (args ≠ [] →
      buildShellCommand command args
        = command ++ " " ++ String.intercalate " " (args.map quoteArg)) ∧
    buildShellCommand command [] = command ∧
    arg.data <:+: (quoteArg arg).data := by
  refine ⟨fun h => by simp [quoteArg, h], fun h => by simp [quoteArg, h],
    fun h => ?_, by simp [buildShellCommand], ?_⟩
  · simp only [buildShellCommand, List.isEmpty_iff]
    simp [h]
  · unfold quoteArg
    split
    · refine ⟨[sq], [sq], ?_⟩
      simp [sqS, String.data_append]
    · exact List.infix_rfl

theorem shell_join_characterization_witness :
    quoteArg "a b" = sqS ++ "a b" ++ sqS ∧
    quoteArg "ab" = "ab" ∧
    buildShellCommand "git" ["a b"]
      = "git" ++ " " ++ String.intercalate " " (["a b"].map quoteArg) :=
  ⟨(shell_join_characterization "git" ["a b"] "a b").1 (by decide),
   (shell_join_characterization "git" ["ab"] "ab").2.1 (by decide),
   (shell_join_characterization "git" ["a b"] "a b").2.2.1 (by decide)⟩

/-! ## iOS workspace and scheme resolution (`findIOSWorkspaceAndScheme` of
`utils.go`) -/

/-- One entry returned by `os.ReadDir`. -/
structure DirEntry where
  name : String
  isDir : Bool
deriving DecidableEq, Repr

/-- `filepath.Join(a, b)` for clean components (no trailing separators or
dot segments, as produced by the sources). -/
def pathJoin (a b : String) : String := a ++ "/" ++ b

/-- Go `strings.HasSuffix`. -/
def hasSuffix (s suffix : String) : Bool := suffix.data.isSuffixOf s.data

/-- Go `strings.TrimSuffix`. -/
def trimSuffixStr (s suffix : String) : String :=
  if hasSuffix s suffix then String.mk (s.data.take (s.data.length - suffix.data.length))
  else s

/-- The characters after the last path separator. -/
def afterLastSlash (l : List Char) : List Char :=
  (l.reverse.takeWhile (fun c => c != '/')).reverse

/-- `filepath.Base` for nonempty paths without trailing separators (the
only shape the sources produce). -/
def baseName (p : String) : String := String.mk (afterLastSlash p.data)

/-- The directory scans of the auto-detection: the first non-directory
entry whose name has the given suffix (`break` on first match). -/
def findFirstWithSuffix (files : List DirEntry) (suffix : String) : Option String :=
  match files with
  | [] => none
  | f :: rest =>
    if !f.isDir && hasSuffix f.name suffix then some f.name
    else findFirstWithSuffix rest suffix

/-- The `ios` sub-config of `Config`. -/
structure IOSConfig where
  enterprise : Bool
  scheme : String
  projectName : String
deriving DecidableEq, Repr

/-- The auto-detection branch: prefer the first `.xcworkspace` entry, then
fall back to the first `.xcodeproj` entry. -/
def autoDetectWorkspace (iosDir : String) (files : List DirEntry) : Except String String :=
  match findFirstWithSuffix files ".xcworkspace" with
  | some n => .ok (pathJoin iosDir n)
  | none =>
    match findFirstWithSuffix files ".xcodeproj" with
    | some n => .ok (pathJoin iosDir n)
    | none => .error "could not find .xcworkspace or .xcodeproj in ios directory"

/-- `findIOSWorkspaceAndScheme`: workspace resolution (override via
`ios.project_name` checked through `os.Stat`, modelled by `statExists`,
else directory auto-detection), then scheme resolution (override via
`ios.scheme`, else the workspace base name without its extension). -/
def findIOSWorkspaceAndScheme (rootPath : String) (ios : IOSConfig)
    (statExists : String → Bool) (listing : Except String (List DirEntry)) :
    Except String (String × String) :=
  let iosDir := pathJoin rootPath "ios"
  let wsRes : Except String String :=
    if ios.projectName != "" then
      let ws := pathJoin iosDir (ios.projectName ++ ".xcworkspace")
      if statExists ws then .ok ws
      else
        let proj := pathJoin iosDir (ios.projectName ++ ".xcodeproj")
        if statExists proj then .ok proj
        else .error ("specified ios.project_name does not correspond to a .xcworkspace or .xcodeproj file: " ++ ios.projectName)
    else
      match listing with
      | .error e => .error ("failed to read ios directory: " ++ e)
      | .ok files => autoDetectWorkspace iosDir files
  match wsRes with
  | .error e => .error e
  | .ok ws =>
    if ios.scheme != "" then .ok (ws, ios.scheme)
    else
      let bn := baseName ws
      if hasSuffix bn ".xcworkspace" then .ok (ws, trimSuffixStr bn ".xcworkspace")
      else if hasSuffix bn ".xcodeproj" then .ok (ws, trimSuffixStr bn ".xcodeproj")
      else .error ("could not determine scheme from workspace/project path: " ++ ws)

theorem findFirstWithSuffix_mem (files : List DirEntry) (suffix n : String)
    (h : findFirstWithSuffix files suffix = some n) :
    ∃ d ∈ files, d.isDir = false ∧ d.name = n ∧ hasSuffix n suffix = true := by
  induction files with
  | nil => simp [findFirstWithSuffix] at h
  | cons f rest ih =>
    unfold findFirstWithSuffix at h
    split at h
    · next hc =>
      obtain ⟨hdir, hsuf⟩ := Bool.and_eq_true_iff.mp hc
      obtain rfl : f.name = n := Option.some.inj h
      exact ⟨f, List.mem_cons_self f rest, by simpa using hdir, rfl, hsuf⟩
    · obtain ⟨d, hd, h1, h2, h3⟩ := ih h
      exact ⟨d, List.mem_cons_of_mem f hd, h1, h2, h3⟩

theorem findFirstWithSuffix_isSome (files : List DirEntry) (suffix : String)
    (e : DirEntry) (hmem : e ∈ files) (hdir : e.isDir = false)
    (hsuf : hasSuffix e.name suffix = true) :
    ∃ n, findFirstWithSuffix files suffix = some n := by
  induction files with
  | nil => cases hmem
  | cons f rest ih =>
    unfold findFirstWithSuffix
    split
    · exact ⟨f.name, rfl⟩
    · next hc =>
      rcases List.mem_cons.mp hmem with rfl | hmem'
      · rw [hdir, hsuf] at hc; simp at hc
      · exact ih hmem'

theorem hasSuffix_append_left (pre n suffix : String)
    (h : hasSuffix n suffix = true) : hasSuffix (pre ++ n) suffix = true := by
  unfold hasSuffix at *
  rw [List.isSuffixOf_iff_suffix] at *
  rw [String.data_append]
  exact h.trans (List.suffix_append _ _)

theorem takeWhile_append_cons {α : Type} (p : α → Bool) (xs : List α) (y : α)
    (ys : List α) (hall : ∀ x ∈ xs, p x = true) (hy : p y = false) :
    (xs ++ y :: ys).takeWhile p = xs := by
  induction xs with
  | nil => simp [List.takeWhile_cons, hy]
  | cons a t ih =>
    have ha := hall a (List.mem_cons_self a t)
    simp only [List.cons_append, List.takeWhile_cons, ha, if_true]
    rw [ih (fun x hx => hall x (List.mem_cons_of_mem a hx))]

theorem baseName_pathJoin (a n : String) (h : '/' ∉ n.data) :
    baseName (pathJoin a n) = n := by
  unfold baseName pathJoin afterLastSlash
  have hdata : (a ++ "/" ++ n).data = (a.data ++ ['/']) ++ n.data := by
    simp [String.data_append]
  rw [hdata, List.reverse_append, List.reverse_append]
  have hall : ∀ x ∈ n.data.reverse, (x != '/') = true := by
    intro x hx
    have hxn : x ∈ n.data := List.mem_reverse.mp hx
    have : ¬ (x = '/') := fun hxe => h (hxe ▸ hxn)
    simpa using this
  rw [show (['/'].reverse ++ a.data.reverse) = '/' :: a.data.reverse by simp,
    takeWhile_append_cons _ _ _ _ hall (by simp)]
  rw [List.reverse_reverse]

/-- C7: with no overrides set, a listing holding only `Foo.xcodeproj`
resolves to that project path with derived scheme `"Foo"`; and whenever the
listing holds a (non-directory, slash-free-named) `.xcworkspace` entry, the
resolution succeeds and returns a `.xcworkspace` path, preferring it over
any `.xcodeproj` entry. -/
theorem ios_workspace_detection (root : String) (ent : Bool)
    (f : String → Bool) (files : List DirEntry) (e : DirEntry)
    (hmem : e ∈ files) (hdir : e.isDir = false)
    (hsuf : hasSuffix e.name ".xcworkspace" = true)
    (hnames : ∀ d ∈ files, '/' ∉ d.name.data) :
    findIOSWorkspaceAndScheme "/r" ⟨false, "", ""⟩ f
        (.ok [⟨"Foo.xcodeproj", false⟩])
      = .ok ("/r/ios/Foo.xcodeproj", "Foo") ∧
    (∃ ws scheme,
      findIOSWorkspaceAndScheme root ⟨ent, "", ""⟩ f (.ok files) = .ok (ws, scheme) ∧
      hasSuffix ws ".xcworkspace" = true) := by
  constructor
  · rfl
  · obtain ⟨n, hn⟩ := findFirstWithSuffix_isSome files ".xcworkspace" e hmem hdir hsuf
    obtain ⟨d, hdmem, _, hdn, hnsuf⟩ := findFirstWithSuffix_mem files ".xcworkspace" n hn
    have hslash : '/' ∉ n.data := hdn ▸ hnames d hdmem
    have hbase : baseName (pathJoin (pathJoin root "ios") n) = n :=
      baseName_pathJoin _ n hslash
    refine ⟨pathJoin (pathJoin root "ios") n, trimSuffixStr n ".xcworkspace", ?_, ?_⟩
    · simp [findIOSWorkspaceAndScheme, autoDetectWorkspace, hn, hbase, hnsuf]
    · exact hasSuffix_append_left _ n _ hnsuf

theorem ios_workspace_detection_witness :
    findIOSWorkspaceAndScheme "/r" ⟨false, "", ""⟩ (fun _ => false)
        (.ok [⟨"Foo.xcodeproj", false⟩])
      = .ok ("/r/ios/Foo.xcodeproj", "Foo") ∧
    (∃ ws scheme,
      findIOSWorkspaceAndScheme "/r" ⟨false, "", ""⟩ (fun _ => false)
          (.ok [⟨"Bar.xcworkspace", false⟩, ⟨"Foo.xcodeproj", false⟩]) = .ok (ws, scheme) ∧
      hasSuffix ws ".xcworkspace" = true) :=
  ios_workspace_detection "/r" false (fun _ => false)
    [⟨"Bar.xcworkspace", false⟩, ⟨"Foo.xcodeproj", false⟩] ⟨"Bar.xcworkspace", false⟩
    (by decide) (by decide) (by decide) (by decide)

/-! ## Android metadata patch (`buildAndroidGUI` of `build.go`, the
`build.gradle` rewrite) -/

/-- Go `strings.Join` (used to characterize `ReplaceAll`, which the Go
documentation defines as `Join(Split(s, old), new)`). -/
def joinWith (sep : List Char) : List (List Char) → List Char
  | [] => []
  | [x] => x
  | x :: y :: rest => x ++ sep ++ joinWith sep (y :: rest)

theorem splitOnSepGo_ne_nil (fuel : Nat) (hay sep : List Char) :
    splitOnSepGo fuel hay sep ≠ [] := by
  cases fuel with
  | zero => simp [splitOnSepGo]
  | succ f =>
    cases hay with
    | nil => simp [splitOnSepGo]
    | cons c t =>
      unfold splitOnSepGo
      split
      · simp
      · split <;> simp

theorem joinWith_cons_cons (sep h : List Char) (c : Char) (rest : List (List Char)) :
    joinWith sep ((c :: h) :: rest) = c :: joinWith sep (h :: rest) := by
  cases rest <;> simp [joinWith]

theorem replaceAllGo_eq_joinWith_splitOnSepGo (fuel : Nat) :
    ∀ (hay nd r : List Char),
      replaceAllGo fuel hay nd r = joinWith r (splitOnSepGo fuel hay nd) := by
  induction fuel with
  | zero => intro hay nd r; simp [replaceAllGo, splitOnSepGo, joinWith]
  | succ f ih =>
    intro hay nd r
    cases hay with
    | nil => simp [replaceAllGo, splitOnSepGo, joinWith]
    | cons c t =>
      by_cases hp : nd.isPrefixOf (c :: t)
      · unfold replaceAllGo splitOnSepGo
        rw [if_pos hp, if_pos hp]
        match hsp : splitOnSepGo f ((c :: t).drop nd.length) nd with
        | [] => exact absurd hsp (splitOnSepGo_ne_nil f _ nd)
        | h' :: rest =>
          rw [show joinWith r ([] :: h' :: rest) = r ++ joinWith r (h' :: rest) by
            simp [joinWith]]
          rw [ih ((c :: t).drop nd.length) nd r, hsp]
      · unfold replaceAllGo splitOnSepGo
        rw [if_neg hp, if_neg hp]
        match hsp : splitOnSepGo f t nd with
        | [] => exact absurd hsp (splitOnSepGo_ne_nil f t nd)
        | h' :: rest =>
          rw [joinWith_cons_cons, ← hsp, ← ih t nd r]

theorem replaceAll_eq_joinWith_splitOnSep (hay nd r : List Char) (h : nd ≠ []) :
    replaceAll hay nd r = joinWith r (splitOnSep hay nd) := by
  have hne : nd.isEmpty = false := by
    cases nd
    · exact absurd rfl h
    · rfl
  unfold replaceAll splitOnSep
  rw [hne]
  simp only [Bool.false_eq_true, if_false]
  exact replaceAllGo_eq_joinWith_splitOnSepGo _ _ _ _

theorem replaceAllGo_not_contains (fuel : Nat) :
    ∀ (hay nd r : List Char), containsSub hay nd = false →
      replaceAllGo fuel hay nd r = hay := by
  induction fuel with
  | zero => intro hay nd r _; rfl
  | succ f ih =>
    intro hay nd r h
    cases hay with
    | nil => rfl
    | cons c t =>
      unfold containsSub at h
      obtain ⟨h1, h2⟩ := Bool.or_eq_false_iff.mp h
      unfold replaceAllGo
      rw [if_neg (by simp [h1])]
      rw [ih t nd r h2]

theorem replaceAll_not_contains (hay nd r : List Char)
    (h : containsSub hay nd = false) : replaceAll hay nd r = hay := by
  unfold replaceAll
  split
  · rfl
  · exact replaceAllGo_not_contains _ hay nd r h

/-- The placeholder `versionCode 1` assumed by the patch. -/
def gradleVersionCodePlaceholder : String := "versionCode 1"

/-- The placeholder `versionName "1.0"` assumed by the patch. -/
def gradleVersionNamePlaceholder : String := "versionName \"1.0\""

/-- The replacement text `versionCode {buildNumber}`. -/
def versionCodeText (buildNumber : Int) : String :=
  "versionCode " ++ toString buildNumber

/-- The replacement text `versionName "{version}"`. -/
def versionNameText (buildVersion : String) : String :=
  "versionName \"" ++ buildVersion ++ "\""

/-- The `build.gradle` rewrite of `buildAndroidGUI`: two successive
`strings.ReplaceAll` calls over the file content. -/
def patchBuildGradle (content : String) (buildNumber : Int)
    (buildVersion : String) : String :=
  String.mk (replaceAll
    (replaceAll content.data gradleVersionCodePlaceholder.data
      (versionCodeText buildNumber).data)
    gradleVersionNamePlaceholder.data (versionNameText buildVersion).data)

/-- C9: the Android metadata patch is a pure textual substitution.  When
the content contains neither placeholder the written-back content is
unchanged (silent no-op, and `buildAndroidGUI` proceeds without error);
in general the result is exactly `Join(Split(·, placeholder), replacement)`
applied for both placeholders in sequence, i.e. every occurrence of each
placeholder is replaced by the corresponding computed text. -/
theorem gradle_patch_characterization (content : String) (n : Int) (v : String) :
    (containsSub content.data gradleVersionCodePlaceholder.data = false →
      containsSub content.data gradleVersionNamePlaceholder.data = false →
      patchBuildGradle content n v = content) ∧
    (patchBuildGradle content n v).data =
      joinWith (versionNameText v).data
        (splitOnSep
          (joinWith (versionCodeText n).data
            (splitOnSep content.data gradleVersionCodePlaceholder.data))
          gradleVersionNamePlaceholder.data) := by
  constructor
  · intro h1 h2
    unfold patchBuildGradle
    rw [replaceAll_not_contains _ _ _ h1, replaceAll_not_contains _ _ _ h2]
  · unfold patchBuildGradle
    rw [replaceAll_eq_joinWith_splitOnSep _ _ _ (by decide),
      replaceAll_eq_joinWith_splitOnSep _ _ _ (by decide)]

theorem gradle_patch_characterization_witness :
    patchBuildGradle "android stuff" 7 "2.1.0" = "android stuff" ∧
    (patchBuildGradle "versionCode 1" 7 "2.1.0").data =
      joinWith (versionNameText "2.1.0").data
        (splitOnSep
          (joinWith (versionCodeText 7).data
            (splitOnSep "versionCode 1".data gradleVersionCodePlaceholder.data))
          gradleVersionNamePlaceholder.data) :=
  ⟨(gradle_patch_characterization "android stuff" 7 "2.1.0").1 (by decide) (by decide),
   (gradle_patch_characterization "versionCode 1" 7 "2.1.0").2⟩

/-! ## Google Drive upload result reporting
(`uploadToGoogleDriveWithAPIGUI`, tail of the function) -/

/-- Outcome of `client.Do(req)`: either the call itself failed (transport
error) or a response with a status code and body was obtained. -/
inductive HttpOutcome where
  | transportError (msg : String)
  | response (status : Nat) (body : String)
deriving DecidableEq, Repr

/-- The error selection at the tail of `uploadToGoogleDriveWithAPIGUI`
(`writerErr` is the value received from the single-slot `uploadErrChan`,
i.e. the background multipart-writer outcome).  `none` means the upload is
reported as successful. -/
def driveUploadReport (writerErr : Option String) (h : HttpOutcome) : Option String :=
  match h with
  | .transportError m =>
    match writerErr with
    | some w => some ("error occurred during upload data preparation: " ++ w)
    | none => some ("failed to execute Google Drive upload request: " ++ m)
  | .response status body =>
    match writerErr with
    | some w =>
      if status == 200 then
        -- writer failure with `http.StatusOK`: warning only, fall through
        -- to the status-range check
        if status < 200 || 300 ≤ status then
          some ("google Drive upload failed with status " ++ toString status ++ ": " ++ body)
        else none
      else some ("error occurred during upload data preparation: " ++ w)
    | none =>
      if status < 200 || 300 ≤ status then
        some ("google Drive upload failed with status " ++ toString status ++ ": " ++ body)
      else none

/-- C4 counterexample: with a writer-side failure and a non-2xx response
(status 403), the reported error is the writer error, NOT the
status-code-and-body error — refuting `regardless of any writer-side
condition`.  The second conjunct shows the status error is what the same
response produces without a writer failure. -/
theorem drive_upload_writer_beats_status :
    driveUploadReport (some "pipe broken") (.response 403 "denied")
      = some "error occurred during upload data preparation: pipe broken" ∧
    driveUploadReport none (.response 403 "denied")
      = some "google Drive upload failed with status 403: denied" := by
  exact ⟨rfl, rfl⟩

/-- C4 (amended): a background-writer failure takes precedence over a
generic transport failure AND over any response whose status is not
exactly 200 (including non-2xx responses); the status-code-and-body error
is reported only when the writer succeeded; a writer failure paired with a
status of exactly 200 is downgraded to a warning and the upload reported
successful. -/
theorem drive_upload_error_precedence (w m body : String) (status : Nat) :
    (driveUploadReport (some w) (.transportError m)
      = some ("error occurred during upload data preparation: " ++ w)) ∧
    (driveUploadReport none (.transportError m)
      = some ("failed to execute Google Drive upload request: " ++ m)) ∧
    (status ≠ 200 → driveUploadReport (some w) (.response status body)
      = some ("error occurred during upload data preparation: " ++ w)) ∧
    (driveUploadReport (some w) (.response 200 body) = none) ∧
    ((status < 200 ∨ 300 ≤ status) → driveUploadReport none (.response status body)
      = some ("google Drive upload failed with status " ++ toString status ++ ": " ++ body)) ∧
    (200 ≤ status → status < 300 → driveUploadReport none (.response status body) = none) := by
  refine ⟨rfl, rfl, ?_, rfl, ?_, ?_⟩
  · intro hs
    simp only [driveUploadReport]
    rw [if_neg (by simpa using hs)]
  · intro hs
    simp only [driveUploadReport, Bool.or_eq_true, decide_eq_true_eq]
    rw [if_pos hs]
  · intro h1 h2
    simp only [driveUploadReport, Bool.or_eq_true, decide_eq_true_eq]
    rw [if_neg (by omega)]

theorem drive_upload_error_precedence_witness :
    driveUploadReport (some "boom") (.response 500 "oops")
      = some ("error occurred during upload data preparation: " ++ "boom") ∧
    driveUploadReport none (.response 500 "oops")
      = some ("google Drive upload failed with status " ++ toString 500 ++ ": " ++ "oops") ∧
    driveUploadReport none (.response 204 "created") = none :=
  ⟨(drive_upload_error_precedence "boom" "m" "oops" 500).2.2.1 (by decide),
   (drive_upload_error_precedence "boom" "m" "oops" 500).2.2.2.2.1 (by omega),
   (drive_upload_error_precedence "boom" "m" "created" 204).2.2.2.2.2 (by omega) (by omega)⟩

/-! ## Command Runner (`runCmd` of `run.go`) -/

/-- Observable behaviour of a subprocess that started successfully and
exited normally: the lines its stdout and stderr produced, and its exit
code. -/
structure ProcOutput where
  stdoutLines : List String
  stderrLines : List String
  exitCode : Nat
deriving DecidableEq, Repr

/-- The `ERR: ` marker prepended to stderr lines by the stderr reader
goroutine. -/
def errMarker : String := "ERR: "

/-- The error returned by `cmd.Wait()` for a normally-exited process:
`nil` for exit code 0, otherwise an `exec.ExitError` whose message is
`exit status N` (from `os.ProcessState.String`). -/
def runCmdWaitError (code : Nat) : Option String :=
  if code == 0 then none else some ("exit status " ++ toString code)

/-- The lines written to the sink by the stdout reader goroutine. -/
def stdoutSinkLines (p : ProcOutput) : List String := p.stdoutLines

/-- The lines written to the sink by the stderr reader goroutine. -/
def stderrSinkLines (p : ProcOutput) : List String :=
  p.stderrLines.map (fun l => errMarker ++ l)

/-- `isInterleave xs ys zs`: `zs` is an order-preserving merge of `xs` and
`ys` — the possible sink bodies produced by the two concurrently writing
reader goroutines. -/
def isInterleave : List String → List String → List String → Bool
  | xs, ys, [] => xs.isEmpty && ys.isEmpty
  | xs, ys, z :: zs =>
    (match xs with
     | x :: xs2 => x == z && isInterleave xs2 ys zs
     | [] => false)
    || (match ys with
        | y :: ys2 => y == z && isInterleave xs ys2 zs
        | [] => false)

/-- The full sink contents of one `runCmd` invocation whose subprocess
produced body `body` (markers from lines 15 and 106 of `run.go`; the
optional echo of the resolved shell invocation when `printCmd` is set). -/
def runCmdSink (printCmd : Bool) (echo : List String) (body : List String)
    (code : Nat) : List String :=
  ["--- Running Command ---"] ++ (if printCmd then echo else []) ++ body
    ++ ["--- Command Finished (Exit Code: " ++ toString code ++ ") ---"]

theorem isInterleave_mem (zs : List String) :
    ∀ (xs ys : List String), isInterleave xs ys zs = true →
      (∀ a ∈ xs, a ∈ zs) ∧ (∀ a ∈ ys, a ∈ zs) := by
  induction zs with
  | nil =>
    intro xs ys h
    unfold isInterleave at h
    obtain ⟨h1, h2⟩ := Bool.and_eq_true_iff.mp h
    rw [List.isEmpty_iff] at h1 h2
    subst h1; subst h2
    exact ⟨by simp, by simp⟩
  | cons z zs ih =>
    intro xs ys h
    unfold isInterleave at h
    rcases Bool.or_eq_true_iff.mp h with h' | h'
    · cases xs with
      | nil => simp at h'
      | cons x xs2 =>
        obtain ⟨hx, hrec⟩ := Bool.and_eq_true_iff.mp h'
        obtain rfl : x = z := by simpa using hx
        obtain ⟨ha, hb⟩ := ih xs2 ys hrec
        refine ⟨?_, fun a hha => List.mem_cons_of_mem _ (hb a hha)⟩
        intro a hha
        rcases List.mem_cons.mp hha with rfl | hha'
        · exact List.mem_cons_self _ _
        · exact List.mem_cons_of_mem _ (ha a hha')
    · cases ys with
      | nil => simp at h'
      | cons y ys2 =>
        obtain ⟨hy, hrec⟩ := Bool.and_eq_true_iff.mp h'
        obtain rfl : y = z := by simpa using hy
        obtain ⟨ha, hb⟩ := ih xs ys2 hrec
        refine ⟨fun a hha => List.mem_cons_of_mem _ (ha a hha), ?_⟩
        intro a hha
        rcases List.mem_cons.mp hha with rfl | hha'
        · exact List.mem_cons_self _ _
        · exact List.mem_cons_of_mem _ (hb a hha')

/-- C5: for any subprocess that starts and exits with a non-zero status,
the returned failure is exactly `exit status N` with the numeric code, and
— for any interleaving the two concurrent pipe readers produce — every
stdout line appears in the sink as-is and every stderr line appears
prefixed with `ERR: `. -/
theorem runCmd_nonzero_exit (p : ProcOutput) (body : List String)
    (printCmd : Bool) (echo : List String)
    (hbody : isInterleave (stdoutSinkLines p) (stderrSinkLines p) body = true)
    (hcode : p.exitCode ≠ 0) :
    runCmdWaitError p.exitCode = some ("exit status " ++ toString p.exitCode) ∧
    (∀ l ∈ p.stdoutLines, l ∈ runCmdSink printCmd echo body p.exitCode) ∧
    (∀ l ∈ p.stderrLines, (errMarker ++ l) ∈ runCmdSink printCmd echo body p.exitCode) := by
  obtain ⟨hout, herr⟩ := isInterleave_mem body _ _ hbody
  refine ⟨?_, ?_, ?_⟩
  · unfold runCmdWaitError
    rw [if_neg (by simpa using hcode)]
  · intro l hl
    have : l ∈ body := hout l hl
    simp [runCmdSink, this]
  · intro l hl
    have : (errMarker ++ l) ∈ body := by
      refine herr _ ?_
      exact List.mem_map_of_mem _ hl
    simp [runCmdSink, this]

theorem runCmd_nonzero_exit_witness :
    runCmdWaitError 2 = some ("exit status " ++ toString 2) ∧
    (∀ l ∈ ["hello"], l ∈ runCmdSink true ["Shell: /bin/sh"]
      ["hello", "ERR: bad"] 2) ∧
    (∀ l ∈ ["bad"], (errMarker ++ l) ∈ runCmdSink true ["Shell: /bin/sh"]
      ["hello", "ERR: bad"] 2) :=
  runCmd_nonzero_exit ⟨["hello"], ["bad"], 2⟩ ["hello", "ERR: bad"] true
    ["Shell: /bin/sh"] (by decide) (by decide)

/-! ## Pipeline orchestrator (`runBuildProcess` of `build.go`)

The pipeline is modelled as a function from a `Config` and a `World` — the
behaviour of the external collaborators (git, file system, subprocesses) —
to the ordered trace of side-effecting steps performed plus the terminal
error, mirroring the control flow of `runBuildProcess` with each build /
upload step abstracted to one event. -/

/-- The `android` sub-config of `Config`. -/
structure AndroidConfig where
  buildType : String
deriving DecidableEq, Repr

/-- `Config` of `config.go` (fields used by the pipeline). -/
structure Config where
  rootPath : String
  buildVersion : String
  platform : String
  driveFolderID : String
  skipUpload : Bool
  skipDeps : Bool
  appleID : String
  teamID : String
  releaseChannel : String
  googleCredentials : String
  android : AndroidConfig
  ios : IOSConfig
deriving DecidableEq, Repr

/-- Behaviour of the external collaborators during one run: git-branch
detection, the constants file, the host OS, and the outcome of each
subprocess-backed step (`none` / `.ok` = success). -/
structure World where
  gitBranch : Option String
  constantsContent : Option String
  constantsWriteOk : Bool
  isDarwin : Bool
  iosDirExists : Bool
  npmResult : Option String
  podResult : Option String
  androidResult : Except String String
  iosResult : Except String String
  driveResult : Option String
  testFlightResult : Option String
deriving Repr

/-- A side-effecting step of the pipeline, in execution order. -/
inductive Ev where
  | gitBranchLookup
  | readConstants (path : String)
  | writeConstants (path content : String)
  | npmInstall
  | podInstall
  | androidBuild
  | iosBuild
  | driveUpload
  | testFlightUpload
deriving DecidableEq, Repr

/-- `filepath.Join(config.RootPath, "src", "utils", "constants.js")`. -/
def constantsPath (c : Config) : String :=
  pathJoin (pathJoin (pathJoin c.rootPath "src") "utils") "constants.js"

/-- The placeholder assumed by `updateEnvironmentConstant`. -/
def envPlaceholder : String := "const ENVIRONMENT = \"DEV\";"

/-- The branch-to-environment mapping of `updateEnvironmentConstant`. -/
def branchEnvironment (branch : String) : String :=
  if branch == "main" then "PROD"
  else if branch == "staging" then "STAGING"
  else "DEV"

/-- The replacement assignment text. -/
def envAssignment (env : String) : String :=
  "const ENVIRONMENT = \"" ++ env ++ "\";"

/-- The content written back by `updateEnvironmentConstant`. -/
def updatedConstants (content branch : String) : String :=
  String.mk (replaceAll content.data envPlaceholder.data
    (envAssignment (branchEnvironment branch)).data)

/-- `updateEnvironmentConstant`: read the constants file (fatal on
failure), substitute the environment constant, write the file back. -/
def updateEnvironmentConstant (c : Config) (branch : String) (w : World) :
    List Ev × Option String :=
  let path := constantsPath c
  match w.constantsContent with
  | none => ([Ev.readConstants path], some "failed to read constants file")
  | some content =>
    let updated := updatedConstants content branch
    if w.constantsWriteOk then
      ([Ev.readConstants path, Ev.writeConstants path updated], none)
    else
      ([Ev.readConstants path, Ev.writeConstants path updated],
        some "failed to write updated constants file")

/-- `installDependenciesGUI`: `npm install`, then `pod install` on macOS
when the `ios` directory exists. -/
def installDependenciesGUI (w : World) : List Ev × Option String :=
  match w.npmResult with
  | some e => ([Ev.npmInstall], some ("npm install failed: " ++ e))
  | none =>
    if w.isDarwin then
      if w.iosDirExists then
        match w.podResult with
        | some e => ([Ev.npmInstall, Ev.podInstall], some ("pod install failed: " ++ e))
        | none => ([Ev.npmInstall, Ev.podInstall], none)
      else ([Ev.npmInstall], none)
    else ([Ev.npmInstall], none)

/-- Go `strings.ToLower` for the ASCII platform names used here. -/
def toLowerStr (s : String) : String := String.mk (s.data.map Char.toLower)

/-- The portion of `runBuildProcess` after the environment-constant update:
dependency installation (skippable), the platform builds, the platform
validation, and the uploads (skippable). -/
def buildAndUpload (c : Config) (w : World) : List Ev × Option String :=
  let deps := if c.skipDeps then (([] : List Ev), (none : Option String))
              else installDependenciesGUI w
  match deps.2 with
  | some e => (deps.1, some ("error installing dependencies: " ++ e))
  | none =>
    let pl := toLowerStr c.platform
    let androidStep : List Ev × Except String String :=
      if pl == "all" || pl == "android" then
        match w.androidResult with
        | .error e => ([Ev.androidBuild], .error e)
        | .ok p => ([Ev.androidBuild], .ok p)
      else ([], .ok "")
    match androidStep.2 with
    | .error e => (deps.1 ++ androidStep.1, some ("android build failed: " ++ e))
    | .ok androidArtifact =>
      let iosStep : List Ev × Except String String :=
        if pl == "all" || pl == "ios" then
          if w.isDarwin then
            match w.iosResult with
            | .error e => ([Ev.iosBuild], .error e)
            | .ok p => ([Ev.iosBuild], .ok p)
          else ([], .ok "")
        else ([], .ok "")
      match iosStep.2 with
      | .error e =>
        (deps.1 ++ androidStep.1 ++ iosStep.1, some ("ios build failed: " ++ e))
      | .ok iosArtifact =>
        let pre := deps.1 ++ androidStep.1 ++ iosStep.1
        if pl != "all" && pl != "android" && pl != "ios" then
          (pre, some ("invalid platform specified: " ++ c.platform))
        else if c.skipUpload then (pre, none)
        else
          let driveStep : List Ev × Option String :=
            if androidArtifact != "" then
              if c.driveFolderID == "" || c.googleCredentials == "" then ([], none)
              else
                match w.driveResult with
                | some e => ([Ev.driveUpload], some ("google drive upload failed: " ++ e))
                | none => ([Ev.driveUpload], none)
            else ([], none)
          match driveStep.2 with
          | some e => (pre ++ driveStep.1, some e)
          | none =>
            let tfStep : List Ev × Option String :=
              if iosArtifact != "" && w.isDarwin then
                match w.testFlightResult with
                | some e =>
                  ([Ev.testFlightUpload], some ("test flight upload failed: " ++ e))
                | none => ([Ev.testFlightUpload], none)
              else ([], none)
            (pre ++ driveStep.1 ++ tfStep.1, tfStep.2)

/-- `runBuildProcess`: build-number calculation, best-effort branch
detection (`"unknown"` fallback), environment-constant update (fatal on
failure), then dependencies, builds, validation and uploads. -/
def runBuildProcess (c : Config) (w : World) : List Ev × Option String :=
  match calculateBuildNumberSimple c.buildVersion with
  | .error e => ([], some ("error calculating build number: " ++ e))
  | .ok _ =>
    let branch := w.gitBranch.getD "unknown"
    let upd := updateEnvironmentConstant c branch w
    match upd.2 with
    | some e =>
      (Ev.gitBranchLookup :: upd.1, some ("error updating environment constant: " ++ e))
    | none =>
      let rest := buildAndUpload c w
      (Ev.gitBranchLookup :: upd.1 ++ rest.1, rest.2)

/-- Case-insensitive recognition of the three platform values. -/
def recognizedPlatform (pl : String) : Bool :=
  pl == "all" || pl == "android" || pl == "ios"

/-- Is the event a platform-build or upload step? -/
def isBuildOrUploadEv : Ev → Bool
  | .androidBuild | .iosBuild | .driveUpload | .testFlightUpload => true
  | _ => false

/-- Is the event dependency installation or a platform build? -/
def isDepOrBuildEv : Ev → Bool
  | .npmInstall | .podInstall | .androidBuild | .iosBuild => true
  | _ => false

theorem installDependenciesGUI_events (w : World) :
    ∀ e ∈ (installDependenciesGUI w).1,
      isBuildOrUploadEv e = false ∧ isDepOrBuildEv e = true := by
  intro e he
  unfold installDependenciesGUI at he
  split at he
  · simp at he
    subst he
    exact ⟨rfl, rfl⟩
  · split at he
    · split at he
      · split at he <;>
          (simp at he; rcases he with rfl | rfl <;> exact ⟨rfl, rfl⟩)
      · simp at he
        subst he
        exact ⟨rfl, rfl⟩
    · simp at he
      subst he
      exact ⟨rfl, rfl⟩

theorem updateEnvironmentConstant_events (c : Config) (b : String) (w : World) :
    ∀ e ∈ (updateEnvironmentConstant c b w).1,
      isBuildOrUploadEv e = false ∧ isDepOrBuildEv e = false := by
  intro e he
  unfold updateEnvironmentConstant at he
  split at he
  · simp at he
    subst he
    exact ⟨rfl, rfl⟩
  · split at he <;>
      (simp at he; rcases he with rfl | rfl <;> exact ⟨rfl, rfl⟩)

theorem buildAndUpload_unrecognized (c : Config) (w : World)
    (hp : recognizedPlatform (toLowerStr c.platform) = false) :
    (∀ e ∈ (buildAndUpload c w).1, isBuildOrUploadEv e = false) ∧
    (buildAndUpload c w).2.isSome = true := by
  unfold recognizedPlatform at hp
  obtain ⟨h12, h3⟩ := Bool.or_eq_false_iff.mp hp
  obtain ⟨h1, h2⟩ := Bool.or_eq_false_iff.mp h12
  unfold buildAndUpload
  cases hsd : c.skipDeps with
  | true =>
    simp [h1, h2, h3, bne]
  | false =>
    cases hdep : (installDependenciesGUI w).2 with
    | some e =>
      simp [h1, h2, h3, bne, hdep]
      intro x hx
      exact (installDependenciesGUI_events w x hx).1
    | none =>
      simp [h1, h2, h3, bne, hdep]
      intro x hx
      exact (installDependenciesGUI_events w x hx).1

/-- A config whose platform is none of the three recognized values. -/
def cfgBadPlatform : Config :=
  ⟨"/app", "1.0.0", "Windows", "", true, false, "", "", "", "", ⟨"Release"⟩, ⟨false, "", ""⟩⟩

/-- A config selecting the Android platform with dependencies enabled and
uploads skipped. -/
def cfgAndroid : Config :=
  ⟨"/app", "1.0.0", "Android", "", true, false, "", "", "", "", ⟨"Release"⟩, ⟨false, "", ""⟩⟩

/-- The default content of the constants file. -/
def devConstants : String := "const ENVIRONMENT = \"DEV\";"

/-- A world in which every collaborator succeeds (non-macOS host). -/
def worldAllOk : World :=
  ⟨some "main", some devConstants, true, false, false, none, none,
    .ok "a.apk", .ok "b.ipa", none, none⟩

/-- A world in which the constants file cannot be read. -/
def worldNoConstants : World :=
  ⟨some "main", none, true, false, false, none, none,
    .ok "a.apk", .ok "b.ipa", none, none⟩

/-- C3 counterexample: with the unrecognized platform `"Windows"` and
`skip_deps = false`, the pipeline runs `npm install` (a subprocess, part of
dependency installation) and only afterwards terminates with the
platform-validation error — refuting `before any subprocess is run`. -/
theorem unrecognized_platform_runs_npm_first :
    Ev.npmInstall ∈ (runBuildProcess cfgBadPlatform worldAllOk).1 ∧
    (runBuildProcess cfgBadPlatform worldAllOk).2
      = some ("invalid platform specified: Windows") := by
  exact ⟨by decide, rfl⟩

/-- C3 (amended): for every config whose platform is not recognized
(case-insensitively `All`/`Android`/`iOS`), the run always fails, and no
platform-build or upload step is ever executed — but the rejection comes
after branch detection, the environment-constant rewrite and (when not
skipped) dependency installation, not before them. -/
theorem unrecognized_platform_rejection (c : Config) (w : World)
    (hp : recognizedPlatform (toLowerStr c.platform) = false) :
    (∀ e ∈ (runBuildProcess c w).1, isBuildOrUploadEv e = false) ∧
    (runBuildProcess c w).2.isSome = true := by
  unfold runBuildProcess
  cases hc : calculateBuildNumberSimple c.buildVersion with
  | error e => exact ⟨by intro x hx; simp at hx, rfl⟩
  | ok n =>
    cases hu : (updateEnvironmentConstant c (w.gitBranch.getD "unknown") w).2 with
    | some e =>
      simp only [hu]
      constructor
      · intro x hx
        rcases List.mem_cons.mp hx with rfl | hx2
        · rfl
        · exact (updateEnvironmentConstant_events c _ w x hx2).1
      · rfl
    | none =>
      obtain ⟨hb1, hb2⟩ := buildAndUpload_unrecognized c w hp
      simp only [hu]
      constructor
      · intro x hx
        rcases List.mem_cons.mp hx with rfl | hx2
        · rfl
        · rcases List.mem_append.mp hx2 with hx3 | hx3
          · exact (updateEnvironmentConstant_events c _ w x hx3).1
          · exact hb1 x hx3
      · exact hb2

theorem unrecognized_platform_rejection_witness :
    (∀ e ∈ (runBuildProcess cfgBadPlatform worldAllOk).1,
      isBuildOrUploadEv e = false) ∧
    (runBuildProcess cfgBadPlatform worldAllOk).2.isSome = true :=
  unrecognized_platform_rejection cfgBadPlatform worldAllOk (by decide)

/-- C10: whenever the pipeline performs any dependency-installation or
platform-build step, the trace starts with branch lookup, then the read
and the rewrite of `{root}/src/utils/constants.js`, so the rewrite precedes
every such step; on every run whose build number computes and whose
constants file is readable — regardless of the skip flags — the file is
rewritten with the placeholder replaced by the branch-mapped environment
(main→PROD, staging→STAGING, otherwise DEV); and when the constants file
cannot be read the run fails before any dependency or build step. -/
theorem env_rewrite_first (c : Config) (w : World) (content : String) (k : Int) :
    ((∃ e ∈ (runBuildProcess c w).1, isDepOrBuildEv e = true) →
      ∃ u rest, (runBuildProcess c w).1
        = Ev.gitBranchLookup :: Ev.readConstants (constantsPath c)
            :: Ev.writeConstants (constantsPath c) u :: rest) ∧
    (calculateBuildNumberSimple c.buildVersion = .ok k →
      w.constantsContent = some content →
      Ev.writeConstants (constantsPath c)
          (updatedConstants content (w.gitBranch.getD "unknown"))
        ∈ (runBuildProcess c w).1) ∧
    (calculateBuildNumberSimple c.buildVersion = .ok k →
      w.constantsContent = none →
      (runBuildProcess c w).2.isSome = true ∧
      ∀ e ∈ (runBuildProcess c w).1, isDepOrBuildEv e = false) := by
  refine ⟨?_, ?_, ?_⟩
  · intro hex
    unfold runBuildProcess at hex ⊢
    cases hc : calculateBuildNumberSimple c.buildVersion with
    | error e => rw [hc] at hex; simp at hex
    | ok n =>
      rw [hc] at hex
      cases hcc : w.constantsContent with
      | none =>
        simp [updateEnvironmentConstant, hcc, isDepOrBuildEv] at hex
      | some cont =>
        cases hcw : w.constantsWriteOk with
        | false =>
          refine ⟨updatedConstants cont (w.gitBranch.getD "unknown"), [], ?_⟩
          simp [updateEnvironmentConstant, hcc, hcw]
        | true =>
          refine ⟨updatedConstants cont (w.gitBranch.getD "unknown"),
            (buildAndUpload c w).1, ?_⟩
          simp [updateEnvironmentConstant, hcc, hcw]
  · intro hk hcc
    unfold runBuildProcess
    rw [hk]
    cases hcw : w.constantsWriteOk with
    | true => simp [updateEnvironmentConstant, hcc, hcw]
    | false => simp [updateEnvironmentConstant, hcc, hcw]
  · intro hk hcc
    unfold runBuildProcess
    rw [hk]
    refine ⟨?_, ?_⟩
    · simp [updateEnvironmentConstant, hcc]
    · intro e he
      simp [updateEnvironmentConstant, hcc] at he
      rcases he with rfl | rfl <;> rfl

theorem env_rewrite_first_witness :
    (∃ u rest, (runBuildProcess cfgAndroid worldAllOk).1
      = Ev.gitBranchLookup :: Ev.readConstants (constantsPath cfgAndroid)
          :: Ev.writeConstants (constantsPath cfgAndroid) u :: rest) ∧
    Ev.writeConstants (constantsPath cfgAndroid)
        (updatedConstants devConstants (worldAllOk.gitBranch.getD "unknown"))
      ∈ (runBuildProcess cfgAndroid worldAllOk).1 ∧
    ((runBuildProcess cfgAndroid worldNoConstants).2.isSome = true ∧
      ∀ e ∈ (runBuildProcess cfgAndroid worldNoConstants).1,
        isDepOrBuildEv e = false) :=
  ⟨(env_rewrite_first cfgAndroid worldAllOk devConstants 0).1
      ⟨Ev.npmInstall, by decide, rfl⟩,
   (env_rewrite_first cfgAndroid worldAllOk devConstants 0).2.1 rfl rfl,
   (env_rewrite_first cfgAndroid worldNoConstants devConstants 0).2.2 rfl rfl⟩

end RnBuilder
